import Mathlib

/-!
# PRISM council frontend: session state machine, verified model

A shallow embedding of the session state machine of the PRISM council
frontend: the conversation document, the streamed-event reducer of
handleSendMessage (App.jsx), the deliberation reducer of proceedToCouncil
(ChatInterface.jsx), the optimistic send/rollback discipline, the
clarification sub-machine operations, the model-selection transitions, and
the newline-framed stream decoder of the API client.

Opaque JSON payloads are modeled by a type parameter alpha; for concrete
evaluation we instantiate alpha with Nat. JavaScript null/undefined fields
are modeled with Option. The source mutates the last element of a copied
message array in place; the embedding performs the same update functionally.
Where the source would throw a TypeError (stage event with an empty message
list or a non-assistant last message - paths no claim exercises, since the
exception is caught by the surrounding try), the embedding leaves the
document unchanged.
-/

namespace Prism

/-- The per-stage loading record of an assistant message
(App.jsx: loading = { stage1, stage2, stage3 }). -/
structure Loading where
  stage1 : Bool
  stage2 : Bool
  stage3 : Bool
deriving Repr, DecidableEq

/-- A message of the conversation, discriminated by its role field.
User messages carry content; assistant messages carry the three optional
stage payloads, optional metadata, and the loading record (App.jsx,
handleSendMessage optimistic append and event switch). -/
inductive Message (α : Type) where
  | user (content : String)
  | assistant (stage1 stage2 stage3 : Option α) (metadata : Option α)
      (loading : Loading)
deriving Repr, DecidableEq

/-- The clarification sub-state attached to a conversation
(clarification_state in the source). Fields absent on the JavaScript
object are modeled as none / false. -/
structure ClarificationState (α : Type) where
  active : Bool
  history : List α
  current_question : Option α
  briefing : Option α
  confirmed : Bool
  confirmed_at : Option String
deriving Repr, DecidableEq

/-- The model selection stored on a conversation (model_selection in the
source): models list, mode tag, and the rationales mapping, modeled as an
association list of (model id, rationale text). -/
structure ModelSelection where
  models : List String
  mode : String
  rationales : List (String × String)
deriving Repr, DecidableEq

/-- The result of the pick-models collaborator call
(api.pickModels response): models, mode echoed back (mode_used when
present), and per-model rationales. -/
structure PickResult where
  models : List String
  mode : String
  mode_used : Option String
  rationales : List (String × String)
deriving Repr, DecidableEq

/-- The conversation document (currentConversation in App.jsx). -/
structure Conversation (α : Type) where
  id : String
  title : Option String
  messages : List (Message α)
  clarification_state : Option (ClarificationState α)
  model_selection : Option ModelSelection
  context_snapshot : Option α
  role_snapshot : Option α
deriving Repr, DecidableEq

/-- The streamed event taxonomy shared by the send-message and
confirm-briefing streams (event.type on the wire). The unknown
constructor stands for any unrecognized kind (the switch default, which
only logs a warning). -/
inductive Event (α : Type) where
  | stage1_start
  | stage1_complete (data : α)
  | stage2_start
  | stage2_complete (data : α) (metadata : Option α)
  | stage3_start
  | stage3_complete (data : α)
  | title_complete (title : Option String)
  | clarification_auto_start
  | clarification_question (data : α)
  | complete
  | error (message : String)
  | unknown
deriving Repr, DecidableEq

variable {α : Type}

/-- Apply an update to the last element of a list, if any (the source
copies the message array and mutates messages[messages.length - 1]). -/
def modifyLast (f : Message α → Message α) : List (Message α) → List (Message α)
  | [] => []
  | [m] => [f m]
  | m :: ms => m :: modifyLast f ms

/-- Apply an update to an assistant message; a user message is returned
unchanged (the source would throw a TypeError there, caught by the
surrounding try; no claim exercises that path). -/
def onAssistant
    (f : Option α → Option α → Option α → Option α → Loading → Message α) :
    Message α → Message α
  | .assistant s1 s2 s3 md l => f s1 s2 s3 md l
  | m => m

/-- True exactly when a message is an assistant message with no stage1 set,
mirroring the check messages[last].role === 'assistant' &&
!messages[last].stage1 of the clarification_question handler. -/
def isEmptyAssistant : Message α → Bool
  | .assistant none _ _ _ _ => true
  | _ => false

/-- lastMsg.loading.stage1 = true (stage1_start handler body). -/
def stage1StartMsg : Message α → Message α :=
  onAssistant fun s1 s2 s3 md l => .assistant s1 s2 s3 md { l with stage1 := true }

/-- lastMsg.stage1 = event.data; lastMsg.loading.stage1 = false
(stage1_complete handler body, note: unconditional assignment). -/
def stage1CompleteMsg (d : α) : Message α → Message α :=
  onAssistant fun _ s2 s3 md l => .assistant (some d) s2 s3 md { l with stage1 := false }

/-- lastMsg.loading.stage2 = true (stage2_start handler body). -/
def stage2StartMsg : Message α → Message α :=
  onAssistant fun s1 s2 s3 md l => .assistant s1 s2 s3 md { l with stage2 := true }

/-- lastMsg.stage2 = event.data; lastMsg.metadata = event.metadata;
lastMsg.loading.stage2 = false (stage2_complete handler body). -/
def stage2CompleteMsg (d : α) (md : Option α) : Message α → Message α :=
  onAssistant fun s1 _ s3 _ l => .assistant s1 (some d) s3 md { l with stage2 := false }

/-- lastMsg.loading.stage3 = true (stage3_start handler body). -/
def stage3StartMsg : Message α → Message α :=
  onAssistant fun s1 s2 s3 md l => .assistant s1 s2 s3 md { l with stage3 := true }

/-- lastMsg.stage3 = event.data; lastMsg.loading.stage3 = false
(stage3_complete handler body). -/
def stage3CompleteMsg (d : α) : Message α → Message α :=
  onAssistant fun s1 s2 _ md l => .assistant s1 s2 (some d) md { l with stage3 := false }

/-- The streamed-event reducer of handleSendMessage (App.jsx, the switch
over eventType inside api.sendMessageStream's callback). Stage handlers
update the last message; title_complete with a payload updates the title
(the fallback branch reloads the external list, leaving the document
unchanged); clarification_question pops a trailing empty assistant
placeholder and replaces the clarification state; complete, error,
clarification_auto_start and unrecognized kinds leave the document
unchanged (their effects are external: list refresh, logging, spinners). -/
def applyEvent (doc : Conversation α) : Event α → Conversation α
  | .stage1_start =>
      { doc with messages := modifyLast stage1StartMsg doc.messages }
  | .stage1_complete d =>
      { doc with messages := modifyLast (stage1CompleteMsg d) doc.messages }
  | .stage2_start =>
      { doc with messages := modifyLast stage2StartMsg doc.messages }
  | .stage2_complete d md =>
      { doc with messages := modifyLast (stage2CompleteMsg d md) doc.messages }
  | .stage3_start =>
      { doc with messages := modifyLast stage3StartMsg doc.messages }
  | .stage3_complete d =>
      { doc with messages := modifyLast (stage3CompleteMsg d) doc.messages }
  | .title_complete t =>
      match t with
      | some s => { doc with title := some s }
      | none => doc
  | .clarification_auto_start => doc
  | .clarification_question d =>
      let msgs :=
        match doc.messages.getLast? with
        | some (.assistant none _ _ _ _) => doc.messages.dropLast
        | _ => doc.messages
      { doc with
        messages := msgs,
        clarification_state := some ⟨true, [], some d, none, false, none⟩ }
  | .complete => doc
  | .error _ => doc
  | .unknown => doc

/-- The deliberation-stream reducer of proceedToCouncil
(ChatInterface.jsx): identical stage handling, with complete and error
leaving the document unchanged; the switch has no title, clarification or
default cases, so every other kind falls through with no effect. -/
def councilApplyEvent (doc : Conversation α) : Event α → Conversation α
  | .stage1_start =>
      { doc with messages := modifyLast stage1StartMsg doc.messages }
  | .stage1_complete d =>
      { doc with messages := modifyLast (stage1CompleteMsg d) doc.messages }
  | .stage2_start =>
      { doc with messages := modifyLast stage2StartMsg doc.messages }
  | .stage2_complete d md =>
      { doc with messages := modifyLast (stage2CompleteMsg d md) doc.messages }
  | .stage3_start =>
      { doc with messages := modifyLast stage3StartMsg doc.messages }
  | .stage3_complete d =>
      { doc with messages := modifyLast (stage3CompleteMsg d) doc.messages }
  | _ => doc

/-- The fresh assistant placeholder appended by handleSendMessage before
the stream starts: all stages absent, all loading flags false. -/
def sendPlaceholder : Message α :=
  .assistant none none none none ⟨false, false, false⟩

/-- The optimistic title heuristic of handleSendMessage on a first
message: split the content into whitespace-separated words
(content.trim().split(/\s+/).filter(Boolean), whitespace modeled as
ASCII whitespace), join the first six with single spaces, and append an
ellipsis when more than six words were present. -/
def draftTitle (content : String) : String :=
  let words := (content.split fun c => c.isWhitespace).filter fun w => w ≠ ""
  String.intercalate " " (words.take 6)
    ++ (if words.length > 6 then "…" else "")

/-- The optimistic local edits of handleSendMessage before the network
call: on a first message, relabel the document with the draft title
(title: draftTitle || prev.title, so an empty draft keeps the old
title); append the user message; then append the assistant placeholder
unless this is the first message and clarification is enabled (in which
case the clarification sub-machine will own the turn). The parallel
relabel of the external conversation list is an external side effect. -/
def optimisticSend (clarificationEnabled : Bool) (content : String)
    (doc : Conversation α) : Conversation α :=
  let isFirstMessage := doc.messages.length == 0
  let title :=
    if isFirstMessage && (draftTitle content != "") then
      some (draftTitle content)
    else doc.title
  let withUser := doc.messages ++ [Message.user content]
  if isFirstMessage && clarificationEnabled then
    { doc with title := title, messages := withUser }
  else
    { doc with title := title, messages := withUser ++ [sendPlaceholder] }

/-- The catch handler of handleSendMessage: messages.slice(0, -2),
removing the optimistic user message and assistant placeholder. -/
def rollbackSend (doc : Conversation α) : Conversation α :=
  { doc with messages := doc.messages.take (doc.messages.length - 2) }

/-- The default clarification state obtained when the JavaScript object is
absent and spread as {...(prev.clarification_state || {})}: every field
undefined. -/
def emptyClarification : ClarificationState α :=
  ⟨false, [], none, none, false, none⟩

/-- The result of api.submitClarificationAnswer: either another question
or the terminal briefing (discriminated by result.type === 'briefing'). -/
inductive AnswerResult (α : Type) where
  | question (q : α)
  | briefing (b : α)
deriving Repr, DecidableEq

/-- handleSubmitClarificationAnswer (ChatInterface.jsx): on another
question, stay active, append the answer to history and install the new
question; on a briefing, deactivate, append the answer and install the
briefing. Both spread the previous clarification state, preserving the
other fields. -/
def submitAnswer (answer : α) (result : AnswerResult α)
    (doc : Conversation α) : Conversation α :=
  let old := doc.clarification_state.getD emptyClarification
  match result with
  | .question q =>
      let upd : ClarificationState α :=
        { old with
          active := true
          history := old.history ++ [answer]
          current_question := some q }
      { doc with clarification_state := some upd }
  | .briefing b =>
      let upd : ClarificationState α :=
        { old with
          active := false
          history := old.history ++ [answer]
          briefing := some b }
      { doc with clarification_state := some upd }

/-- The synchronous local update of handleConfirmBriefing
(ChatInterface.jsx), applied before any downstream network call: spread
the previous clarification state, set active false and confirmed true,
and keep an existing confirmed_at stamp (falling back to the current
time, passed in as now). -/
def confirmBriefingLocal (now : String) (doc : Conversation α) :
    Conversation α :=
  let old := doc.clarification_state.getD emptyClarification
  let upd : ClarificationState α :=
    { old with
      active := false
      confirmed := true
      confirmed_at := some (old.confirmed_at.getD now) }
  { doc with clarification_state := some upd }

/-- The assistant placeholder appended by proceedToCouncil before the
deliberation stream: stage1 loading starts true. -/
def councilPlaceholder : Message α :=
  .assistant none none none none ⟨true, false, false⟩

/-- proceedToCouncil's local edit before api.confirmClarificationBriefing
is awaited: append the council placeholder. -/
def councilStart (doc : Conversation α) : Conversation α :=
  { doc with messages := doc.messages ++ [councilPlaceholder] }

/-- handleProceedFromModelEvaluation (ChatInterface.jsx): install the
evaluation result on the document verbatim, mode taken from mode_used
when present (modelSelection.mode_used || modelSelection.mode). -/
def proceedModelEval (sel : PickResult) (doc : Conversation α) :
    Conversation α :=
  let upd : ModelSelection := ⟨sel.models, sel.mode_used.getD sel.mode, sel.rationales⟩
  { doc with model_selection := some upd }

/-- handleCancelModelEvaluation (ChatInterface.jsx): clear the messages
and the whole clarification state; the stored model_selection field of
the document is not touched (only the component-local copy is dropped). -/
def cancelModelEval (doc : Conversation α) : Conversation α :=
  { doc with messages := [], clarification_state := none }

/-- Receiving the evaluation result (setModelSelection(result) in
handleConfirmBriefing) stores it in component state only; the document is
unchanged until the user proceeds. -/
def receiveEvaluation (_sel : PickResult) (doc : Conversation α) :
    Conversation α :=
  doc

/-- The confirmed flag as the source reads it
(!!conversation.clarification_state.confirmed): false when the
clarification state is absent. -/
def confirmedFlag (doc : Conversation α) : Bool :=
  (doc.clarification_state.map (fun s => s.confirmed)).getD false

/-- The active flag as the source reads it. -/
def activeFlag (doc : Conversation α) : Bool :=
  (doc.clarification_state.map (fun s => s.active)).getD false

/-- True exactly for a clarification_question event. -/
def Event.isClarificationQuestion : Event α → Bool
  | .clarification_question _ => true
  | _ => false

/-- The rationales-keys-within-models invariant for one model selection
(spec data model: keys of rationales form a subset of models). -/
def msWF (ms : ModelSelection) : Bool :=
  ms.rationales.all fun kv => ms.models.contains kv.1

/-- The same invariant on the collaborator's pick result. -/
def pickWF (sel : PickResult) : Bool :=
  sel.rationales.all fun kv => sel.models.contains kv.1

/-- The document-level invariant: the stored model selection, if any,
satisfies the subset property. -/
def docModelInv (doc : Conversation α) : Bool :=
  doc.model_selection.all msWF

/-! ## Stream decoder (api.js, sendMessageStream and
confirmClarificationBriefing)

Transport text is modeled as a list of characters; each transport chunk is
one such list. JSON.parse of a candidate payload is an external black box,
modeled as an arbitrary function parse from text to an optional event. -/

/-- A fragment of transport text. -/
abbrev Str := List Char

/-- The fixed six-character record marker, the string "data: " of
line.startsWith('data: '). -/
def dataMarker : Str := ['d', 'a', 't', 'a', ':', ' ']

/-- One iteration of the inner decode loop, for a single line: a line is
significant only if it starts with the marker; its remainder
(line.slice(6)) is handed to JSON.parse, and a parse failure is swallowed
by the catch (logged, nothing emitted, nothing thrown to the caller). -/
def lineDecode (parse : Str → Option ε) (line : Str) : Option ε :=
  if dataMarker.isPrefixOf line then parse (line.drop 6) else none

/-- chunk.split('\n'): split one chunk into its lines. Splitting the empty
text yields one empty line, as in JavaScript. -/
def splitOnNl : Str → List Str
  | [] => [[]]
  | c :: rest =>
    let r := splitOnNl rest
    if c = '\n' then [] :: r
    else
      match r with
      | [] => [[c]]
      | hd :: tl => (c :: hd) :: tl

/-- Decode one transport chunk: split on newlines, keep the events of the
lines that carry the marker and parse; malformed lines contribute
nothing. -/
def decodeChunk (parse : Str → Option ε) (chunk : Str) : List ε :=
  (splitOnNl chunk).filterMap (lineDecode parse)

/-- The whole decode loop: chunks are processed strictly in arrival order,
each independently (the decoder keeps no buffer between reader.read()
results), and the emitted events are the concatenation of the per-chunk
decodes. The return type is a plain list: no decode failure reaches the
caller. -/
def decodeStream (parse : Str → Option ε) : List Str → List ε
  | [] => []
  | c :: cs => decodeChunk parse c ++ decodeStream parse cs

/-! ## Helper lemmas -/

theorem modifyLast_concat (f : Message α → Message α)
    (l : List (Message α)) (m : Message α) :
    modifyLast f (l ++ [m]) = l ++ [f m] := by
  induction l with
  | nil => rfl
  | cons a l ih =>
    cases l with
    | nil => rfl
    | cons b l => simpa [modifyLast] using ih

theorem splitOnNl_ne_nil (s : Str) : splitOnNl s ≠ [] := by
  cases s with
  | nil => simp [splitOnNl]
  | cons c rest =>
    simp only [splitOnNl]
    split
    · simp
    · split
      · simp
      · simp

theorem splitOnNl_no_newline (s : Str) (h : ∀ c ∈ s, c ≠ '\n') :
    splitOnNl s = [s] := by
  induction s with
  | nil => rfl
  | cons c rest ih =>
    have hc : c ≠ '\n' := h c (by simp)
    have hrest : splitOnNl rest = [rest] := ih fun x hx => h x (by simp [hx])
    simp [splitOnNl, hc, hrest]

theorem decodeStream_append (parse : Str → Option ε) (a b : List Str) :
    decodeStream parse (a ++ b) = decodeStream parse a ++ decodeStream parse b := by
  induction a with
  | nil => rfl
  | cons c cs ih => simp [decodeStream, ih]

theorem decodeChunk_single_line (parse : Str → Option ε) (c : Str)
    (h : ∀ ch ∈ c, ch ≠ '\n') :
    decodeChunk parse c = (lineDecode parse c).toList := by
  simp [decodeChunk, splitOnNl_no_newline c h, List.filterMap]
  cases lineDecode parse c <;> simp

theorem take_len_append {β : Type} (l r : List β) :
    (l ++ r).take l.length = l := by
  induction l with
  | nil => rfl
  | cons a l ih => simp [List.take, ih]

theorem councilApplyEvent_clarification (doc : Conversation α) (e : Event α) :
    (councilApplyEvent doc e).clarification_state = doc.clarification_state := by
  cases e <;> rfl

theorem foldl_council_clarification (evs : List (Event α)) (doc : Conversation α) :
    (evs.foldl councilApplyEvent doc).clarification_state = doc.clarification_state := by
  induction evs generalizing doc with
  | nil => rfl
  | cons e evs ih =>
    simp only [List.foldl]
    rw [ih, councilApplyEvent_clarification]

/-! ## Claims -/

/-- Claim C2: folding a well-formed event sequence (stage1_start,
stage1_complete, stage2_start, stage2_complete, stage3_start,
stage3_complete, complete, in this order) into a document whose last
message is a fresh assistant placeholder yields a document whose stage
fields equal the payloads of the corresponding complete events, with the
metadata of the stage2 event installed and all three loading flags
false. -/
theorem wellformed_fold_final_state (doc : Conversation α) (d1 d2 d3 : α)
    (md : Option α) :
    ([Event.stage1_start, .stage1_complete d1, .stage2_start,
      .stage2_complete d2 md, .stage3_start, .stage3_complete d3,
      .complete]).foldl applyEvent
        { doc with messages := doc.messages ++ [sendPlaceholder] }
    = { doc with messages := doc.messages ++
        [.assistant (some d1) (some d2) (some d3) md ⟨false, false, false⟩] } := by
  simp [List.foldl, applyEvent, modifyLast_concat, sendPlaceholder,
        stage1StartMsg, stage1CompleteMsg, stage2StartMsg, stage2CompleteMsg,
        stage3StartMsg, stage3CompleteMsg, onAssistant]

theorem take_sub_two {β : Type} (l : List β) (a b : β) :
    (l ++ [a] ++ [b]).take ((l ++ [a] ++ [b]).length - 2) = l := by
  rw [List.append_assoc]
  have h : (l ++ ([a] ++ [b])).length - 2 = l.length := by simp
  rw [h]
  exact take_len_append _ _

/-- Claim C3: when a send fails before stream completion, the rollback
(slice(0, -2)) removes exactly the optimistically appended messages: the
messages list - hence its length - returns to its exact pre-send value,
and no partial rollback of only one of the two appended messages can
occur. (The rollback touches only messages: the optimistic first-message
title relabel is left in place by the catch handler, and the claim says
nothing about it.) -/
theorem send_rollback_restores (doc : Conversation α) (ce : Bool)
    (content : String) :
    (rollbackSend (optimisticSend ce content doc)).messages = doc.messages := by
  obtain ⟨i, t, msgs, cs, ms, ctx, rl⟩ := doc
  simp only [optimisticSend, rollbackSend]
  cases msgs with
  | nil => cases ce <;> simp
  | cons m rest =>
    have hc : (((m :: rest).length == 0) && ce) = false := by simp
    simp [hc, take_sub_two]

/-- Claim C4: a clarification_question event removes the trailing message
exactly when it is an assistant message with no stage1 set, leaves the
messages untouched otherwise, and in all cases activates clarification
with the event payload as the current question. -/
theorem clarification_question_effect (doc : Conversation α) (d : α) :
    ((applyEvent doc (.clarification_question d)).messages =
      if (doc.messages.getLast?.map isEmptyAssistant).getD false
      then doc.messages.dropLast else doc.messages)
    ∧ (applyEvent doc (.clarification_question d)).clarification_state =
        some ⟨true, [], some d, none, false, none⟩ := by
  refine ⟨?_, by simp [applyEvent]⟩
  simp only [applyEvent]
  cases h : doc.messages.getLast? with
  | none => simp [h, isEmptyAssistant]
  | some m =>
    cases m with
    | user c => simp [h, isEmptyAssistant]
    | assistant s1 s2 s3 md l =>
      cases s1 <;> simp [h, isEmptyAssistant]

/-- Claim C7: confirming a briefing sets confirmed true and active false
synchronously, in the local update applied before any downstream network
call; the document seen by the deliberation stream (after the placeholder
append of proceedToCouncil) already carries confirmed = true, and every
prefix of streamed events preserves both flags, so confirmed is true
before (and after) the first stream event. -/
theorem confirm_briefing_flags (doc : Conversation α) (now : String)
    (evs : List (Event α)) :
    confirmedFlag (confirmBriefingLocal now doc) = true
    ∧ activeFlag (confirmBriefingLocal now doc) = false
    ∧ confirmedFlag
        (evs.foldl councilApplyEvent (councilStart (confirmBriefingLocal now doc))) = true
    ∧ activeFlag
        (evs.foldl councilApplyEvent (councilStart (confirmBriefingLocal now doc))) = false := by
  refine ⟨by simp [confirmBriefingLocal, confirmedFlag],
          by simp [confirmBriefingLocal, activeFlag], ?_, ?_⟩
  · rw [confirmedFlag, foldl_council_clarification]
    simp [councilStart, confirmBriefingLocal]
  · rw [activeFlag, foldl_council_clarification]
    simp [councilStart, confirmBriefingLocal]

/-- Claim C8: after every model-selection transition - receiving an
evaluation result (which leaves the document unchanged), proceeding with
a selection (which copies the result verbatim), or cancelling (which
leaves the stored selection untouched) - the keys of the document's
rationales mapping remain a subset of its models list, given that the
incoming collaborator result satisfies the same subset contract the spec
assigns to it. -/
theorem model_selection_inv_preserved (doc : Conversation α)
    (sel : PickResult) (hsel : pickWF sel = true)
    (hdoc : docModelInv doc = true) :
    docModelInv (receiveEvaluation sel doc) = true
    ∧ docModelInv (proceedModelEval sel doc) = true
    ∧ docModelInv (cancelModelEval doc) = true := by
  refine ⟨hdoc, ?_, ?_⟩
  · simp [pickWF] at hsel
    simp [docModelInv, proceedModelEval, Option.all, msWF]
    exact hsel
  · obtain ⟨i, t, msgs, cs, ms, ctx, rl⟩ := doc
    simpa [docModelInv, cancelModelEval] using hdoc

/-- Witness for claim C8, at a one-model selection with one rationale. -/
theorem model_selection_inv_witness :
    docModelInv (receiveEvaluation ⟨["m1"], "cheapest", none, [("m1", "strong")]⟩
        (⟨"s", none, [], none, none, none, none⟩ : Conversation Nat)) = true
    ∧ docModelInv (proceedModelEval ⟨["m1"], "cheapest", none, [("m1", "strong")]⟩
        (⟨"s", none, [], none, none, none, none⟩ : Conversation Nat)) = true
    ∧ docModelInv (cancelModelEval
        (⟨"s", none, [], none, none, none, none⟩ : Conversation Nat)) = true :=
  model_selection_inv_preserved _ _ (by decide) (by decide)

/-- Claim C9: the decoder drops malformed records silently. Decoding is a
total function into an event list (the parse failure is swallowed, never
surfaced), the decoded sequence is the in-order filterMap of the
recognized lines over all delivered lines, and a stream containing one
malformed record decodes to exactly the decodes of the chunks before and
after it - nothing is aborted and no later well-formed record is lost. -/
theorem malformed_record_dropped {ε : Type} (parse : Str → Option ε)
    (chunks pre post : List Str) (bad : Str)
    (hline : ∀ ch ∈ bad, ch ≠ '\n')
    (hbad : lineDecode parse bad = none) :
    decodeStream parse chunks
      = ((chunks.map splitOnNl).flatten).filterMap (lineDecode parse)
    ∧ decodeStream parse (pre ++ [bad] ++ post)
      = decodeStream parse pre ++ decodeStream parse post := by
  constructor
  · induction chunks with
    | nil => rfl
    | cons c cs ih =>
      simp [decodeStream, decodeChunk, ih, List.filterMap_append]
  · rw [decodeStream_append, decodeStream_append]
    simp [decodeStream, decodeChunk_single_line parse bad hline, hbad]

/-- Witness for claim C9: a parser recognizing only the payload "ok", a
malformed record "data: z" between two well-formed ones; both survive. -/
theorem malformed_record_dropped_witness :
    decodeStream (fun s => if s = ['o', 'k'] then some 0 else none)
        [['d', 'a', 't', 'a', ':', ' ', 'o', 'k']]
      = (([['d', 'a', 't', 'a', ':', ' ', 'o', 'k']].map splitOnNl).flatten).filterMap
          (lineDecode (fun s => if s = ['o', 'k'] then some 0 else none))
    ∧ decodeStream (fun s => if s = ['o', 'k'] then some 0 else none)
        ([['d', 'a', 't', 'a', ':', ' ', 'o', 'k']]
          ++ [['d', 'a', 't', 'a', ':', ' ', 'z']]
          ++ [['d', 'a', 't', 'a', ':', ' ', 'o', 'k']])
      = decodeStream (fun s => if s = ['o', 'k'] then some 0 else none)
          [['d', 'a', 't', 'a', ':', ' ', 'o', 'k']]
        ++ decodeStream (fun s => if s = ['o', 'k'] then some 0 else none)
          [['d', 'a', 't', 'a', ':', ' ', 'o', 'k']] :=
  malformed_record_dropped _ _ _ _ _ (by decide) (by decide)

/-- Claim C10: the decoder splits each transport chunk on newlines
independently, with no buffering of a partial trailing line across chunk
boundaries. A record delivered split across two chunks - each fragment
failing the line decode, though their concatenation would decode - is
never emitted, while the same record fully contained in one chunk is
emitted in order between the decodes of the surrounding chunks. -/
theorem split_record_never_emitted {ε : Type} (parse : Str → Option ε)
    (pre post : List Str) (c1 c2 : Str) (e : ε)
    (h1 : ∀ ch ∈ c1, ch ≠ '\n') (h2 : ∀ ch ∈ c2, ch ≠ '\n')
    (hc1 : lineDecode parse c1 = none) (hc2 : lineDecode parse c2 = none)
    (hfull : lineDecode parse (c1 ++ c2) = some e) :
    decodeStream parse (pre ++ [c1, c2] ++ post)
      = decodeStream parse pre ++ decodeStream parse post
    ∧ decodeStream parse (pre ++ [c1 ++ c2] ++ post)
      = decodeStream parse pre ++ e :: decodeStream parse post := by
  have h12 : ∀ ch ∈ c1 ++ c2, ch ≠ '\n' := by
    intro ch hch
    rcases List.mem_append.mp hch with h | h
    · exact h1 ch h
    · exact h2 ch h
  constructor
  · rw [decodeStream_append, decodeStream_append]
    simp [decodeStream, decodeChunk_single_line parse c1 h1,
          decodeChunk_single_line parse c2 h2, hc1, hc2]
  · rw [decodeStream_append, decodeStream_append]
    simp [decodeStream, decodeChunk_single_line parse _ h12, hfull]

/-- Witness for claim C10: the record "data: ok" split as
"data: o" + "k"; split delivery emits nothing, one-chunk delivery emits
the event. -/
theorem split_record_never_emitted_witness :
    decodeStream (fun s => if s = ['o', 'k'] then some 0 else none)
        ([] ++ [['d', 'a', 't', 'a', ':', ' ', 'o'], ['k']] ++ [])
      = decodeStream (fun s => if s = ['o', 'k'] then some 0 else none) []
        ++ decodeStream (fun s => if s = ['o', 'k'] then some 0 else none) []
    ∧ decodeStream (fun s => if s = ['o', 'k'] then some 0 else none)
        ([] ++ [['d', 'a', 't', 'a', ':', ' ', 'o'] ++ ['k']] ++ [])
      = decodeStream (fun s => if s = ['o', 'k'] then some 0 else none) []
        ++ 0 :: decodeStream (fun s => if s = ['o', 'k'] then some 0 else none) [] :=
  split_record_never_emitted _ [] [] _ _ 0
    (by decide) (by decide) (by decide) (by decide) (by decide)

/-- Counterexample to claim C1 as stated: a document whose last assistant
message already has stage1 = some 1 is changed by a stage1_complete event
carrying payload 2 - the handler assigns unconditionally instead of
ignoring the event. -/
theorem stage_write_once_counterexample :
    applyEvent
        (⟨"c", none, [.assistant (some 1) none none none ⟨false, false, false⟩],
          none, none, none, none⟩ : Conversation Nat)
        (.stage1_complete 2)
      ≠ (⟨"c", none, [.assistant (some 1) none none none ⟨false, false, false⟩],
          none, none, none, none⟩ : Conversation Nat) := by
  decide

/-- A document whose messages end with a given assistant message (used to
state the amended claim C1). -/
def withLast (doc : Conversation α) (pre : List (Message α))
    (m : Message α) : Conversation α :=
  { doc with messages := pre ++ [m] }

/-- Amended claim C1: a stageN_complete event always installs the event's
payload in the corresponding stage field of the trailing assistant
message (overwriting any existing payload - stage2 also installing the
event metadata) and clears that stage's loading flag; re-applying the
identical event leaves the document unchanged (idempotent under duplicate
delivery), but the field is not write-once. -/
theorem stage_complete_overwrites (doc : Conversation α)
    (pre : List (Message α)) (s1 s2 s3 md : Option α) (l : Loading)
    (d1 d2 d3 : α) (md2 : Option α) :
    ((applyEvent (withLast doc pre (.assistant s1 s2 s3 md l))
        (.stage1_complete d1)).messages
      = pre ++ [.assistant (some d1) s2 s3 md ⟨false, l.stage2, l.stage3⟩])
    ∧ ((applyEvent (withLast doc pre (.assistant s1 s2 s3 md l))
        (.stage2_complete d2 md2)).messages
      = pre ++ [.assistant s1 (some d2) s3 md2 ⟨l.stage1, false, l.stage3⟩])
    ∧ ((applyEvent (withLast doc pre (.assistant s1 s2 s3 md l))
        (.stage3_complete d3)).messages
      = pre ++ [.assistant s1 s2 (some d3) md ⟨l.stage1, l.stage2, false⟩])
    ∧ applyEvent (applyEvent (withLast doc pre (.assistant s1 s2 s3 md l))
        (.stage1_complete d1)) (.stage1_complete d1)
      = applyEvent (withLast doc pre (.assistant s1 s2 s3 md l))
        (.stage1_complete d1)
    ∧ applyEvent (applyEvent (withLast doc pre (.assistant s1 s2 s3 md l))
        (.stage2_complete d2 md2)) (.stage2_complete d2 md2)
      = applyEvent (withLast doc pre (.assistant s1 s2 s3 md l))
        (.stage2_complete d2 md2)
    ∧ applyEvent (applyEvent (withLast doc pre (.assistant s1 s2 s3 md l))
        (.stage3_complete d3)) (.stage3_complete d3)
      = applyEvent (withLast doc pre (.assistant s1 s2 s3 md l))
        (.stage3_complete d3) := by
  simp [withLast, applyEvent, modifyLast_concat, stage1CompleteMsg,
        stage2CompleteMsg, stage3CompleteMsg, onAssistant]

/-- Counterexample to claim C5 as stated: a clarification_question event
applied to a document with non-empty clarification history changes the
history (it is reset to the empty list). -/
theorem history_not_preserved_counterexample :
    ((applyEvent
        (⟨"c", none, [], some ⟨true, [7], some 1, none, false, none⟩,
          none, none, none⟩ : Conversation Nat)
        (.clarification_question 2)).clarification_state.map
          (fun s => s.history))
      ≠ ((⟨"c", none, [], some ⟨true, [7], some 1, none, false, none⟩,
          none, none, none⟩ : Conversation Nat).clarification_state.map
          (fun s => s.history)) := by
  decide

/-- Amended claim C5: applying a clarification_question event replaces the
clarification state wholesale and resets history to the empty list; the
history is preserved only when it was already empty. -/
theorem clarification_question_resets_history (doc : Conversation α)
    (d : α) :
    ((applyEvent doc (.clarification_question d)).clarification_state.map
        (fun s => s.history)) = some [] := by
  simp [applyEvent]

/-- Counterexample to claim C6 as stated: cancelling the model evaluation
on a document with confirmed = true nulls the whole clarification state,
removing the confirmed flag. -/
theorem confirmed_reset_counterexample :
    confirmedFlag
        (⟨"c", none, [], some ⟨false, [], none, none, true, none⟩,
          none, none, none⟩ : Conversation Nat) = true
    ∧ confirmedFlag (cancelModelEval
        (⟨"c", none, [], some ⟨false, [], none, none, true, none⟩,
          none, none, none⟩ : Conversation Nat)) = false := by
  decide

/-- Amended claim C6: once confirmed is true it stays true under every
stream event other than clarification_question (which rebuilds the
clarification state without the flag), under answer submission, briefing
confirmation, receiving an evaluation result, and model-selection
proceed; it is reset by model-selection cancel, which nulls the whole
clarification state. -/
theorem confirmed_monotone_except_cancel (doc : Conversation α)
    (e : Event α) (ans : α) (r : AnswerResult α) (now : String)
    (sel : PickResult)
    (hc : confirmedFlag doc = true)
    (he : e.isClarificationQuestion = false) :
    confirmedFlag (applyEvent doc e) = true
    ∧ confirmedFlag (submitAnswer ans r doc) = true
    ∧ confirmedFlag (confirmBriefingLocal now doc) = true
    ∧ confirmedFlag (receiveEvaluation sel doc) = true
    ∧ confirmedFlag (proceedModelEval sel doc) = true := by
  cases hcs : doc.clarification_state with
  | none => simp [confirmedFlag, hcs] at hc
  | some c =>
    have hcc : c.confirmed = true := by
      simpa [confirmedFlag, hcs] using hc
    refine ⟨?_, ?_, ?_, ?_, ?_⟩
    · cases e with
      | clarification_question d => simp [Event.isClarificationQuestion] at he
      | title_complete t => cases t <;> simp [applyEvent, confirmedFlag, hcs, hcc]
      | _ => simp [applyEvent, confirmedFlag, hcs, hcc]
    · cases r <;> simp [submitAnswer, confirmedFlag, hcs, hcc]
    · simp [confirmBriefingLocal, confirmedFlag]
    · simpa [receiveEvaluation, confirmedFlag, hcs] using hcc
    · simp [proceedModelEval, confirmedFlag, hcs, hcc]

/-- Witness for the amended claim C6, at a confirmed document and a
complete event. -/
theorem confirmed_monotone_witness :
    confirmedFlag (applyEvent
        (⟨"w", none, [], some ⟨false, [], none, none, true, none⟩,
          none, none, none⟩ : Conversation Nat) .complete) = true
    ∧ confirmedFlag (submitAnswer 3 (.question 4)
        (⟨"w", none, [], some ⟨false, [], none, none, true, none⟩,
          none, none, none⟩ : Conversation Nat)) = true
    ∧ confirmedFlag (confirmBriefingLocal "t"
        (⟨"w", none, [], some ⟨false, [], none, none, true, none⟩,
          none, none, none⟩ : Conversation Nat)) = true
    ∧ confirmedFlag (receiveEvaluation ⟨["m"], "cheapest", none, []⟩
        (⟨"w", none, [], some ⟨false, [], none, none, true, none⟩,
          none, none, none⟩ : Conversation Nat)) = true
    ∧ confirmedFlag (proceedModelEval ⟨["m"], "cheapest", none, []⟩
        (⟨"w", none, [], some ⟨false, [], none, none, true, none⟩,
          none, none, none⟩ : Conversation Nat)) = true :=
  confirmed_monotone_except_cancel _ .complete 3 (.question 4) "t"
    ⟨["m"], "cheapest", none, []⟩ (by decide) (by decide)

end Prism
